import Mathlib

/-!
# Verification of the data pipeline of the Performance-debate-BP repository

Shallow embedding of the tabular data pipeline:
* `robustParseValue` (src/ProfilePage.tsx) — the Value Parser;
* `metadata`, `filteredData` (AnalysisPage) — Metadata Inferencer and global filters;
* `processedData`, `totalPages` / `paginatedData`, `exportCSV` (DataTable) —
  Query Engine, Pager, CSV export;
* `chartDataHistogram`, `chartBuilderGrouped` (src/ChartBuilder.tsx) and
  `dashboardChartData` (src/Dashboard.tsx) — the Aggregator.

JavaScript numbers are modelled as `ℚ`; `NaN` is modelled by `Option ℚ`
(`none` = NaN) at the points where the code can produce it.  JavaScript
strings are Lean `String`s.  Records (JS objects) are insertion-ordered
association lists, matching `Object.keys` / `Object.values` enumeration
order for string keys.
-/

namespace Audit

attribute [local semireducible] Rat.add Rat.mul Rat.sub Rat.inv

/-- A parsed cell value: a number or a text string (`DataRow` values). -/
inductive CellValue
  | num (q : ℚ)
  | str (s : String)
deriving DecidableEq, Repr

/-- A raw cell value as received by the Value Parser
(`null`/`undefined`/number/string). -/
inductive RawValue
  | null
  | undef
  | num (q : ℚ)
  | str (s : String)
deriving DecidableEq, Repr

/-- One imported data row (`DataRow`): a JS object modelled as an
insertion-ordered association list from column name to cell value. -/
abbrev Record := List (String × CellValue)

/-- Model of `row[key]`: `none` models JS `undefined` (absent property). -/
def getVal (r : Record) (k : String) : Option CellValue :=
  (r.find? (fun p => p.1 == k)).map (fun p => p.2)

/-- Model of `Object.keys(row)` (insertion order). -/
def recordKeys (r : Record) : List String := r.map (fun p => p.1)

/-- Model of `Object.values(row)` (insertion order). -/
def recordValues (r : Record) : List CellValue := r.map (fun p => p.2)

/-! ## Character classes of the Value Parser's regexes (by code point) -/

/-- Regex `\d`: code points 48–57 (`'0'`–`'9'`). -/
def isDigitCh (c : Char) : Bool := 48 ≤ c.toNat && c.toNat ≤ 57

/-- Regex `\s` (whitespace): space 32, tab 9, LF 10, VT 11, FF 12, CR 13. -/
def isWsCh (c : Char) : Bool :=
  c.toNat == 32 || c.toNat == 9 || c.toNat == 10 || c.toNat == 11 ||
  c.toNat == 12 || c.toNat == 13

/-- An ASCII letter (65–90 = `'A'`–`'Z'`, 97–122 = `'a'`–`'z'`). -/
def isLetterCh (c : Char) : Bool :=
  (65 ≤ c.toNat && c.toNat ≤ 90) || (97 ≤ c.toNat && c.toNat ≤ 122)

/-- Character class of the guard regex `/^[\d.,\s$%+-]+$/`:
digits, `.` 46, `,` 44, whitespace, `$` 36, `%` 37, `+` 43, `-` 45. -/
def allowedChar (c : Char) : Bool :=
  isDigitCh c || c.toNat == 46 || c.toNat == 44 || isWsCh c ||
  c.toNat == 36 || c.toNat == 37 || c.toNat == 43 || c.toNat == 45

/-- Character class kept by `clean.replace(/[^\d.,-]/g, '')`:
digits, `.` 46, `,` 44, `-` 45. -/
def stripKeep (c : Char) : Bool :=
  isDigitCh c || c.toNat == 46 || c.toNat == 44 || c.toNat == 45

/-- Model of `String.prototype.trim` on a character list: drop whitespace from both
ends. -/
def trimL (cs : List Char) : List Char :=
  ((cs.dropWhile isWsCh).reverse.dropWhile isWsCh).reverse

/-- Model of `String.prototype.trim`. -/
def jsTrim (s : String) : String := ⟨trimL s.toList⟩

/-- Model of `String.prototype.toLowerCase` on one character (ASCII range, the only
case the claims exercise). -/
def lowerCh (c : Char) : Char :=
  if 65 ≤ c.toNat && c.toNat ≤ 90 then Char.ofNat (c.toNat + 32) else c

/-- Model of `String.prototype.toLowerCase`. -/
def jsToLower (s : String) : String := ⟨s.toList.map lowerCh⟩

/-- The guard test `/^[\d.,\s$%+-]+$/.test(clean)`: at least one character,
all from the allowed class. -/
def guardOk (s : String) : Bool :=
  !s.toList.isEmpty && s.toList.all allowedChar

/-- Model of `clean.replace(/[^\d.,-]/g, '')`. -/
def stripNonNumeric (s : String) : String := ⟨s.toList.filter stripKeep⟩

/-- Model of `s.replace(',', '.')` on a character list: a string pattern in JS
`String.prototype.replace` replaces only the first occurrence. -/
def replaceFirstCommaL : List Char → List Char
  | [] => []
  | c :: cs => if c = ',' then '.' :: cs else c :: replaceFirstCommaL cs

/-- Model of `s.replace(',', '.')`. -/
def replaceFirstComma (s : String) : String := ⟨replaceFirstCommaL s.toList⟩

/-! ## `parseFloat` (ECMAScript): longest numeric-literal prefix, `none` = NaN -/

/-- Numeric value of a digit list (most significant first). -/
def digitsVal (ds : List Char) : ℕ :=
  ds.foldl (fun a c => 10 * a + (c.toNat - 48)) 0

/-- Consume an exponent suffix `[sign] digits` (the part after `e`/`E`),
returning its sign, value and the remainder; `none` when no digits
follow. -/
def consumeExp (cs : List Char) : Option (Bool × ℕ × List Char) :=
  let (eneg, cs₁) : Bool × List Char :=
    match cs with
    | '-' :: rest => (true, rest)
    | '+' :: rest => (false, rest)
    | _ => (false, cs)
  let ds := cs₁.takeWhile isDigitCh
  if ds.isEmpty then none
  else some (eneg, digitsVal ds, cs₁.dropWhile isDigitCh)

/-- Consume `[sign] digits [. digits] [e [sign] digits]` from the front of a
character list, returning the value and the unconsumed remainder; `none`
when no numeric-literal prefix exists.  An ill-formed exponent part is
ignored, as in JS (the longest valid literal prefix is taken).
`Infinity`/hex forms never appear in the claims' inputs. -/
def consumeNumeric (cs : List Char) : Option (ℚ × List Char) :=
  let (sgn, cs₁) : ℚ × List Char :=
    match cs with
    | '-' :: rest => (-1, rest)
    | '+' :: rest => (1, rest)
    | _ => (1, cs)
  let intDs := cs₁.takeWhile isDigitCh
  let cs₂ := cs₁.dropWhile isDigitCh
  let (fracDs, cs₃) : List Char × List Char :=
    match cs₂ with
    | '.' :: rest => (rest.takeWhile isDigitCh, rest.dropWhile isDigitCh)
    | _ => ([], cs₂)
  if intDs.isEmpty && fracDs.isEmpty then none
  else
    let mant : ℚ := (digitsVal intDs : ℚ) + (digitsVal fracDs : ℚ) / (10 : ℚ) ^ fracDs.length
    match cs₃ with
    | 'e' :: rest =>
      match consumeExp rest with
      | some (eneg, e, rest') =>
        some (sgn * mant * (if eneg then ((10 : ℚ) ^ e)⁻¹ else (10 : ℚ) ^ e), rest')
      | none => some (sgn * mant, cs₃)
    | 'E' :: rest =>
      match consumeExp rest with
      | some (eneg, e, rest') =>
        some (sgn * mant * (if eneg then ((10 : ℚ) ^ e)⁻¹ else (10 : ℚ) ^ e), rest')
      | none => some (sgn * mant, cs₃)
    | _ => some (sgn * mant, cs₃)

/-- Model of `parseFloat(s)`: skip leading whitespace, read the longest numeric
literal prefix; `none` models NaN. -/
def parseFloat (s : String) : Option ℚ :=
  (consumeNumeric (s.toList.dropWhile isWsCh)).map (fun p => p.1)

/-! ## The Value Parser (`robustParseValue`, src/ProfilePage.tsx lines 28–46) -/

/-- Model of `robustParseValue` from src/ProfilePage.tsx:
* `null`/`undefined` → `''`;
* numbers pass through;
* otherwise trim; empty → `''`;
* strip to `[\d.,-]`, replace the first `,` with `.`, `parseFloat`;
* numeric result only if the parse succeeded and the trimmed text matches
  `/^[\d.,\s$%+-]+$/`; otherwise the trimmed text. -/
def robustParseValue : RawValue → CellValue
  | .null => .str ""
  | .undef => .str ""
  | .num q => .num q
  | .str v =>
    let clean := jsTrim v
    if clean = "" then .str ""
    else
      let numericCandidate := replaceFirstComma (stripNonNumeric clean)
      match parseFloat numericCandidate with
      | some parsed => if guardOk clean then .num parsed else .str clean
      | none => .str clean

/-! ## `Number()` and `String()` casts -/

/-- ECMAScript `Number(string)`: trimmed empty string is `0`; otherwise the
whole trimmed string must be a numeric literal, else NaN (`none`).  Decimal
literals only: hex/`Infinity` forms never appear in the claims' inputs. -/
def strToNumber (s : String) : Option ℚ :=
  let t := trimL s.toList
  if t.isEmpty then some 0
  else
    match consumeNumeric t with
    | some (q, []) => some q
    | _ => none

/-- Model of `Number(v)` for a cell value (`none` = NaN). -/
def toNumber : CellValue → Option ℚ
  | .num q => some q
  | .str s => strToNumber s

/-- Model of `Number(row[col])`: an absent property is `undefined`, and
`Number(undefined)` is NaN. -/
def toNumberOpt : Option CellValue → Option ℚ
  | none => none
  | some v => toNumber v

/-- Model of `String(q)` for a JS number.  Exact for integers — the only numbers the
claims stringify; non-integral rationals use a `num/den` stand-in (the
binary-double shortest-round-trip notation is not representable in `ℚ`). -/
def numToString (q : ℚ) : String :=
  if q.den = 1 then toString q.num else toString q.num ++ "/" ++ toString q.den

/-- Model of `String(v)` for a cell value. -/
def cvToString : CellValue → String
  | .num q => numToString q
  | .str s => s

/-- Model of `String(row[col])`: `String(undefined)` is `"undefined"`. -/
def cvToStringU : Option CellValue → String
  | none => "undefined"
  | some v => cvToString v

/-- Model of `hay.includes(needle)` (substring test). -/
def strIncludes (hay needle : String) : Bool :=
  (List.range (hay.toList.length + 1)).any
    (fun i => needle.toList.isPrefixOf (hay.toList.drop i))

/-! ## Metadata Inferencer (AnalysisPage `metadata` memo) -/

/-- Inferred column type. -/
inductive ColType
  | number
  | string
deriving DecidableEq, Repr, BEq

/-- Model of `ColumnMetadata`. -/
structure ColumnMetadata where
  name : String
  type : ColType
deriving DecidableEq, Repr

/-- Model of `typeof row[header] === 'number'`. -/
def isNumberCV : Option CellValue → Bool
  | some (.num _) => true
  | _ => false

/-- Number of records holding a number in column `header`. -/
def numericCount (data : List Record) (header : String) : ℕ :=
  (data.filter (fun row => isNumberCV (getVal row header))).length

/-- The Metadata Inferencer (AnalysisPage): headers from the first record;
a column is numeric when `numericCount > data.length / 2` (JS real
division). -/
def metadata (data : List Record) : List ColumnMetadata :=
  match data with
  | [] => []
  | r0 :: _ =>
    (recordKeys r0).map (fun header =>
      { name := header
        type := if ((numericCount data header : ℚ) > (data.length : ℚ) / 2)
                then ColType.number else ColType.string })

/-! ## Query Engine: AnalysisPage global filters -/

/-- Free-text search: some stringified value contains the lower-cased
term. -/
def matchesSearch (term : String) (row : Record) : Bool :=
  (recordValues row).any
    (fun v => strIncludes (jsToLower (cvToString v)) (jsToLower term))

/-- Global category filter: `'All'`, or the first textual column's
stringified value equals the selected category (false when there is no
textual column). -/
def matchesCategory (md : List ColumnMetadata) (cat : String) (row : Record) : Bool :=
  cat == "All" ||
    (match md.find? (fun m => m.type == ColType.string) with
     | some m => cvToStringU (getVal row m.name) == cat
     | none => false)

/-- AnalysisPage `filteredData` memo. -/
def filteredData (data : List Record) (searchTerm globalCategory : String)
    (md : List ColumnMetadata) : List Record :=
  data.filter (fun row => matchesSearch searchTerm row &&
    matchesCategory md globalCategory row)

/-! ## Query Engine: DataTable `processedData` -/

/-- One per-column text filter pass: skipped when the lower-cased filter
text is empty (JS string truthiness), else keep rows whose stringified
value contains it. -/
def applyTextFilter (col filtVal : String) (rows : List Record) : List Record :=
  let val := jsToLower filtVal
  if val == "" then rows
  else rows.filter (fun row => strIncludes (jsToLower (cvToStringU (getVal row col))) val)

/-- Model of `Number(a) >= Number(b)` with NaN failing the comparison. -/
def qGe (a b : Option ℚ) : Bool :=
  match a, b with
  | some x, some y => decide (y ≤ x)
  | _, _ => false

/-- Model of `Number(a) <= Number(b)` with NaN failing the comparison. -/
def qLe (a b : Option ℚ) : Bool :=
  match a, b with
  | some x, some y => decide (x ≤ y)
  | _, _ => false

/-- One per-column range filter pass: a `min` pass when `min` is a
non-empty string, then a `max` pass when `max` is non-empty. -/
def applyRangeFilter (col minS maxS : String) (rows : List Record) : List Record :=
  let rows₁ :=
    if minS == "" then rows
    else rows.filter (fun row => qGe (toNumberOpt (getVal row col)) (strToNumber minS))
  if maxS == "" then rows₁
  else rows₁.filter (fun row => qLe (toNumberOpt (getVal row col)) (strToNumber maxS))

/-- Model of `Object.keys(columnFilters).forEach(...)` over the text filters. -/
def applyColumnFilters (cf : List (String × String)) (rows : List Record) : List Record :=
  cf.foldl (fun acc p => applyTextFilter p.1 p.2 acc) rows

/-- Model of `Object.keys(rangeFilters).forEach(...)` over the range filters
(`col`, `min`, `max`). -/
def applyRangeFilters (rf : List (String × String × String)) (rows : List Record) : List Record :=
  rf.foldl (fun acc p => applyRangeFilter p.1 p.2.1 p.2.2 acc) rows

/-! ## Sorting (JS stable `Array.prototype.sort` with a comparator) -/

/-- JS `<` on cell values: two strings compare lexicographically, any other
combination numerically (`none`/NaN comparisons are false). -/
def jsLt : CellValue → CellValue → Bool
  | .str a, .str b => decide (a < b)
  | a, b =>
    match toNumber a, toNumber b with
    | some x, some y => decide (x < y)
    | _, _ => false

/-- The sort comparator of `processedData`: `a[key] ?? ''` and `b[key] ?? ''`
compared with `<`/`>`, direction-inverted for descending. -/
def cmpRows (key : String) (asc : Bool) (a b : Record) : Int :=
  let av := (getVal a key).getD (.str "")
  let bv := (getVal b key).getD (.str "")
  if jsLt av bv then (if asc then -1 else 1)
  else if jsLt bv av then (if asc then 1 else -1)
  else 0

/-- Stable insertion of `a` after every element `b` with `le b a`
(so that, processed left to right, earlier elements stay first on ties). -/
def insertSorted {α : Type} (le : α → α → Bool) (a : α) : List α → List α
  | [] => [a]
  | b :: bs => if le b a then b :: insertSorted le a bs else a :: b :: bs

/-- Stable sort (JS `Array.prototype.sort`): keeps `x` before `y` whenever
`le x y` and both orders agree, and preserves original order on ties.  For
a consistent comparator this output is the unique stable sort, hence equal
to the engine's. -/
def stableSort {α : Type} (le : α → α → Bool) (l : List α) : List α :=
  l.foldl (fun acc x => insertSorted le x acc) []

/-- Optional sort state `{key, direction}`. -/
structure SortConfig where
  key : String
  asc : Bool
deriving DecidableEq, Repr

/-- DataTable `processedData`: text filters, then range filters, then the
optional sort. -/
def processedData (data : List Record) (cf : List (String × String))
    (rf : List (String × String × String)) (sc : Option SortConfig) : List Record :=
  let f₁ := applyColumnFilters cf data
  let f₂ := applyRangeFilters rf f₁
  match sc with
  | none => f₂
  | some s => stableSort (fun a b => decide (cmpRows s.key s.asc a b ≤ 0)) f₂

/-! ## Pager -/

/-- Model of `Math.ceil(processedData.length / PAGE_SIZE)` with `PAGE_SIZE = 10`. -/
def totalPages (n : ℕ) : ℕ := (⌈(n : ℚ) / 10⌉).toNat

/-- Model of `processedData.slice((currentPage - 1) * PAGE_SIZE, currentPage * PAGE_SIZE)`
for a 1-based page number. -/
def paginatedData (rows : List Record) (page : ℕ) : List Record :=
  (rows.drop ((page - 1) * 10)).take 10

/-! ## CSV export (DataTable `exportCSV`) -/

/-- One exported row: every value interpolated into `"${v}"`, i.e. wrapped
in double quotes whatever its type, joined with commas. -/
def quotedRow (r : Record) : String :=
  String.intercalate "," ((recordValues r).map (fun v => "\"" ++ cvToString v ++ "\""))

/-- Model of `exportCSV`: `none` models the early `return` on an empty dataset;
otherwise header row from the first record's keys, then one quoted row per
record of the component's `data` prop. -/
def exportCSV (data : List Record) : Option String :=
  match data with
  | [] => none
  | r0 :: _ =>
    some (String.intercalate "," (recordKeys r0) ++ "\n" ++
      String.intercalate "\n" (data.map quotedRow))

/-! ## Aggregator: histogram (ChartBuilder `chartData`, histogram branch) -/

/-- A histogram bin `{range, frequency}`. -/
structure HistBin where
  range : String
  frequency : ℕ
deriving DecidableEq, Repr

/-- Model of `data.map(d => Number(d[yAxis])).filter(v => !isNaN(v))`. -/
def numericValues (data : List Record) (yAxis : String) : List ℚ :=
  (data.map (fun d => toNumberOpt (getVal d yAxis))).filterMap id

/-- Model of `Math.min(...values)` over a non-empty list (0 is a dummy for `[]`,
which the code guards against). -/
def listMin : List ℚ → ℚ
  | [] => 0
  | x :: xs => xs.foldl min x

/-- Model of `Math.max(...values)` over a non-empty list. -/
def listMax : List ℚ → ℚ
  | [] => 0
  | x :: xs => xs.foldl max x

/-- Model of `q.toFixed(1)` (round half away handled as half up; used only in bin
labels, which no claim inspects). -/
def toFixed1 (q : ℚ) : String :=
  let n : ℤ := ⌊q * 10 + 1 / 2⌋
  let sgn := if n < 0 then "-" else ""
  sgn ++ toString (n.natAbs / 10) ++ "." ++ toString (n.natAbs % 10)

/-- The bin label `` `${(min + i*step).toFixed(1)} - ${(min + (i+1)*step).toFixed(1)}` ``. -/
def binLabel (mn step : ℚ) (i : ℕ) : String :=
  toFixed1 (mn + (i : ℚ) * step) ++ " - " ++ toFixed1 (mn + ((i : ℚ) + 1) * step)

/-- Model of `distribution[i].frequency++` at an in-range index. -/
def bumpBin : List HistBin → ℕ → List HistBin
  | [], _ => []
  | b :: bs, 0 => { b with frequency := b.frequency + 1 } :: bs
  | b :: bs, n + 1 => b :: bumpBin bs n

/-- The histogram branch of ChartBuilder's `chartData`.  When every numeric
value is equal, `step = 0` and the JS computes
`Math.min(Math.floor((v - min) / 0), 9) = NaN`, so
`distribution[NaN].frequency++` dereferences `undefined` and throws a
`TypeError`; that crash is modelled by `Except.error`. -/
def chartDataHistogram (data : List Record) (yAxis : String) :
    Except String (List HistBin) :=
  let values := numericValues data yAxis
  if values.length = 0 then .ok []
  else
    let mn := listMin values
    let mx := listMax values
    let step := (mx - mn) / 10
    let distribution := (List.range 10).map (fun (i : ℕ) =>
      ({ range := binLabel mn step i, frequency := 0 } : HistBin))
    if step = 0 then
      .error "TypeError: distribution[NaN] is undefined"
    else
      .ok (values.foldl
        (fun dist v => bumpBin dist (min (⌊(v - mn) / step⌋.toNat) 9)) distribution)

/-! ## Aggregator: categorical group-mean -/

/-- Append `v` to the group of key `k`, creating the group at the end on
first sight (JS object insertion order = `Object.keys` order). -/
def addToGroup {α : Type} : List (String × List α) → String → α → List (String × List α)
  | [], k, v => [(k, [v])]
  | (k', vs) :: rest, k, v =>
    if k' == k then (k', vs ++ [v]) :: rest else (k', vs) :: addToGroup rest k v

/-- Model of `grouped[key].reduce((a, b) => a + b, 0) / grouped[key].length` for a
group of plain numbers (groups are non-empty by construction). -/
def qMean (vs : List ℚ) : ℚ := vs.foldl (· + ·) 0 / (vs.length : ℚ)

/-- Model of `String(d[xAxis] || 'N/A')`: any falsy value (absent, empty string,
zero) becomes `'N/A'`. -/
def cvFalsy : Option CellValue → Bool
  | none => true
  | some (.str s) => s == ""
  | some (.num q) => q == 0

/-- The group key of ChartBuilder's categorical branch. -/
def xKey (d : Record) (xAxis : String) : String :=
  if cvFalsy (getVal d xAxis) then "N/A" else cvToStringU (getVal d xAxis)

/-- Model of `Number(d[yAxis]) || 0`: NaN (and 0) collapse to 0. -/
def yVal (d : Record) (yAxis : String) : ℚ :=
  match toNumberOpt (getVal d yAxis) with
  | none => 0
  | some q => q

/-- The grouping pass of ChartBuilder's categorical branch over the first
500 records. -/
def chartGroups (data : List Record) (xAxis yAxis : String) :
    List (String × List ℚ) :=
  (data.take 500).foldl (fun g d => addToGroup g (xKey d xAxis) (yVal d yAxis)) []

/-- Descending comparator `(a, b) => b.value - a.value` as a stable-sort
`le` on plain numbers. -/
def descLeQ (a b : String × ℚ) : Bool := decide (b.2 ≤ a.2)

/-- The categorical branch of ChartBuilder's `chartData`: group the first
500 records, average each group, sort by mean descending, then
`slice(0, 15)`. -/
def chartBuilderGrouped (data : List Record) (xAxis yAxis : String) :
    List (String × ℚ) :=
  (stableSort descLeQ ((chartGroups data xAxis yAxis).map (fun p => (p.1, qMean p.2)))).take 15

/-! ## Aggregator: Dashboard `chartData` -/

/-- Model of `reduce((a, b) => a + b, 0)` over values that may be NaN: NaN
propagates. -/
def jsSum : List (Option ℚ) → Option ℚ :=
  List.foldl (fun acc v =>
    match acc, v with
    | some a, some b => some (a + b)
    | _, _ => none) (some 0)

/-- Mean of a (non-empty) group whose members may be NaN. -/
def jsMean (vs : List (Option ℚ)) : Option ℚ :=
  (jsSum vs).map (fun s => s / (vs.length : ℚ))

/-- Descending comparator on possibly-NaN means.  A NaN comparator value
leaves engine behaviour unspecified (ES2023 §23.1.3.30); the model keeps
the original order in that case.  No claim exercises it. -/
def descLeOpt (a b : String × Option ℚ) : Bool :=
  match a.2, b.2 with
  | some x, some y => decide (y ≤ x)
  | _, _ => true

/-- Dashboard `chartData`: key `String(d[stringCol])` (no `|| 'N/A'`
fallback), raw `Number(d[numCol])` pushed without `|| 0`, grouping over the
first 100 records, then `Object.keys(grouped).slice(0, 10)` — truncation
to the first ten groups in insertion order — and only then the descending
sort. -/
def dashboardChartData (data : List Record) (md : List ColumnMetadata) :
    List (String × Option ℚ) :=
  let strCols := md.filter (fun m => m.type == ColType.string)
  let numCols := md.filter (fun m => m.type == ColType.number)
  match strCols.head?, numCols.head? with
  | some sc, some nc =>
    if sc.name == "" || nc.name == "" then []
    else
      let grouped := (data.take 100).foldl
        (fun g d => addToGroup g (cvToStringU (getVal d sc.name))
          (toNumberOpt (getVal d nc.name))) []
      stableSort descLeOpt ((grouped.take 10).map (fun p => (p.1, jsMean p.2)))
  | _, _ => []

/-! ## Filter stages for the order-independence property -/

/-- The keep-predicate induced by one range-filter configuration
`(col, min, max)`: the min comparison when `min` is set, and the max
comparison when `max` is set. -/
def rangeKeep (p : String × String × String) (row : Record) : Bool :=
  (p.2.1 == "" || qGe (toNumberOpt (getVal row p.1)) (strToNumber p.2.1)) &&
  (p.2.2 == "" || qLe (toNumberOpt (getVal row p.1)) (strToNumber p.2.2))

/-- One elementary filter of the Query Engine, with its parameters. -/
inductive FilterStage
  | search (term : String)
  | category (md : List ColumnMetadata) (cat : String)
  | textF (col filtVal : String)
  | rangeMin (col minS : String)
  | rangeMax (col maxS : String)
deriving DecidableEq

/-- The per-row keep-predicate of an elementary filter stage. -/
def stagePred : FilterStage → Record → Bool
  | .search t => matchesSearch t
  | .category md c => matchesCategory md c
  | .textF col v => fun row =>
      jsToLower v == "" ||
        strIncludes (jsToLower (cvToStringU (getVal row col))) (jsToLower v)
  | .rangeMin col m => fun row =>
      m == "" || qGe (toNumberOpt (getVal row col)) (strToNumber m)
  | .rangeMax col m => fun row =>
      m == "" || qLe (toNumberOpt (getVal row col)) (strToNumber m)

/-- Apply a sequence of elementary filter stages in order. -/
def applyStages (ss : List FilterStage) (rows : List Record) : List Record :=
  ss.foldl (fun acc s => acc.filter (stagePred s)) rows

/-- The stage sequence the application actually runs: global search and
category (AnalysisPage), then per-column text filters, then per-column
range filters (DataTable). -/
def canonicalStages (t c : String) (md : List ColumnMetadata)
    (cf : List (String × String)) (rf : List (String × String × String)) :
    List FilterStage :=
  [FilterStage.search t, FilterStage.category md c] ++
    cf.map (fun p => FilterStage.textF p.1 p.2) ++
    (rf.map (fun p => [FilterStage.rangeMin p.1 p.2.1, FilterStage.rangeMax p.1 p.2.2])).flatten

/-! ## Concrete data sets used by counterexamples, scenarios and witnesses -/

/-- The spec's range-filter scenario: ages 17, 25 and `"n/a"`. -/
def agesRange : List Record :=
  [[("age", CellValue.num 17)], [("age", CellValue.num 25)], [("age", CellValue.str "n/a")]]

/-- The spec's inference scenario: CSV `name,age` / `Ana,30` / `Luis,abc`
after ingestion. -/
def agesRecords : List Record :=
  [[("name", CellValue.str "Ana"), ("age", CellValue.num 30)],
   [("name", CellValue.str "Luis"), ("age", CellValue.str "abc")]]

/-- A two-record import used to show the CSV export honours the global
filters. -/
def importExample : List Record :=
  [[("name", CellValue.str "Ana")], [("name", CellValue.str "Luis")]]

/-- Eleven records in eleven groups with means 1..11, group of mean 11
inserted last. -/
def groups11 : List Record :=
  (List.range 11).map (fun i =>
    [("g", CellValue.str ("g" ++ toString (i + 1))), ("v", CellValue.num (i + 1))])

/-- Two records where the second lacks the group column. -/
def groups2 : List Record :=
  [[("g", CellValue.str "a"), ("v", CellValue.num 1)], [("v", CellValue.num 2)]]

/-- A two-value column with distinct values, for the non-degenerate
histogram witness. -/
def histEx : List Record := [[("x", CellValue.num 1)], [("x", CellValue.num 2)]]

/-- The histogram the code produces on `histEx`. -/
def histExBins : List HistBin :=
  [⟨"1.0 - 1.1", 1⟩, ⟨"1.1 - 1.2", 0⟩, ⟨"1.2 - 1.3", 0⟩, ⟨"1.3 - 1.4", 0⟩,
   ⟨"1.4 - 1.5", 0⟩, ⟨"1.5 - 1.6", 0⟩, ⟨"1.6 - 1.7", 0⟩, ⟨"1.7 - 1.8", 0⟩,
   ⟨"1.8 - 1.9", 0⟩, ⟨"1.9 - 2.0", 1⟩]

/-- A one-record data set for the pager witness. -/
def pagerExample : List Record := [[("a", CellValue.num 1)]]

/-- Decidable equality for the histogram result type. -/
instance : DecidableEq (Except String (List HistBin)) := fun a b =>
  match a, b with
  | .error e, .error f =>
    if h : e = f then .isTrue (by rw [h]) else .isFalse (by simp [h])
  | .ok x, .ok y =>
    if h : x = y then .isTrue (by rw [h]) else .isFalse (by simp [h])
  | .error _, .ok _ => .isFalse (by simp)
  | .ok _, .error _ => .isFalse (by simp)

/-! ## Lemmas about the Value Parser -/

theorem allowedChar_of_letter_false {c : Char} (h : isLetterCh c = true) :
    allowedChar c = false := by
  simp only [isLetterCh, allowedChar, isDigitCh, isWsCh, Bool.or_eq_true,
    Bool.and_eq_true, decide_eq_true_eq, beq_iff_eq, Bool.or_eq_false_iff,
    Bool.and_eq_false_iff, beq_eq_false_iff_ne, ne_eq,
    decide_eq_false_iff_not, not_le] at h ⊢
  omega

theorem all_allowed_false_of_any_letter {cs : List Char}
    (h : cs.any isLetterCh = true) : cs.all allowedChar = false := by
  rcases List.any_eq_true.mp h with ⟨c, hc, hl⟩
  exact List.all_eq_false.mpr ⟨c, hc, by simp [allowedChar_of_letter_false hl]⟩

/-- C1, counterexample: the trimmed input `"$"` consists only of characters
from the claimed class, yet the Value Parser returns it as text (the
stripped candidate `""` fails the numeric parse), not as a number. -/
theorem C1_counterexample :
    guardOk (jsTrim "$") = true ∧ robustParseValue (.str "$") = .str "$" := by
  decide

/-- C1 (amended): an input whose trimmed text passes the character-class
guard is returned as a number **provided the numeric parse of the stripped,
comma-normalised candidate succeeds**; and every input whose trimmed text
contains a letter is returned as the trimmed text unchanged. -/
theorem C1_prop (s : String) :
    (guardOk (jsTrim s) = true →
      (parseFloat (replaceFirstComma (stripNonNumeric (jsTrim s)))).isSome = true →
      ∃ q, robustParseValue (.str s) = .num q)
    ∧ ((jsTrim s).toList.any isLetterCh = true →
      robustParseValue (.str s) = .str (jsTrim s)) := by
  constructor
  · intro hg hp
    have hne : jsTrim s ≠ "" := by
      intro h
      rw [h] at hg
      exact absurd hg (by decide)
    rcases Option.isSome_iff_exists.mp hp with ⟨q, hq⟩
    refine ⟨q, ?_⟩
    simp only [robustParseValue, if_neg hne, hq, hg, if_true]
  · intro ha
    have hne : jsTrim s ≠ "" := by
      intro h
      rw [h] at ha
      exact absurd ha (by decide)
    have hg : guardOk (jsTrim s) = false := by
      unfold guardOk
      rw [all_allowed_false_of_any_letter ha, Bool.and_false]
    simp only [robustParseValue, if_neg hne]
    cases hpf : parseFloat (replaceFirstComma (stripNonNumeric (jsTrim s))) with
    | none => rfl
    | some q => simp [hg]

/-- C1, witness: `" $12.50 "` passes the guard and the candidate parses, so
a number comes back; `"abc"` contains letters and comes back as trimmed
text. -/
theorem C1_witness :
    (∃ q, robustParseValue (.str " $12.50 ") = .num q) ∧
      robustParseValue (.str "abc") = .str (jsTrim "abc") :=
  ⟨(C1_prop " $12.50 ").1 (by decide) (by decide),
    (C1_prop "abc").2 (by decide)⟩

/-- C10: `replace(',', '.')` with a string pattern rewrites only the first
comma, so a comma inside a formatted number acts as a decimal separator:
`"1,234"` parses to 1.234 = 617/500 (not 1234), and `"1,234,567"` also
parses to 1.234 (`parseFloat` stops at the surviving second comma). -/
theorem C10_prop :
    (∀ pre post : List Char, ',' ∉ pre →
      replaceFirstCommaL (pre ++ ',' :: post) = pre ++ '.' :: post)
    ∧ robustParseValue (.str "1,234") = .num (617 / 500)
    ∧ robustParseValue (.str "1,234,567") = .num (617 / 500) := by
  refine ⟨?_, by decide, by decide⟩
  intro pre post h
  induction pre with
  | nil => simp [replaceFirstCommaL]
  | cons c cs ih =>
    rw [List.mem_cons, not_or] at h
    simp only [List.cons_append, replaceFirstCommaL, if_neg (Ne.symm h.1)]
    rw [List.append_eq, ih h.2]

/-- C10, witness: the general first-comma lemma at the concrete candidate
`"1,2"`. -/
theorem C10_witness : replaceFirstCommaL ['1', ',', '2'] = ['1', '.', '2'] :=
  C10_prop.1 ['1'] ['2'] (by decide)

/-! ## Range filters are conjunctive keep-predicates (C2) -/

theorem applyRangeFilter_eq_filter (col minS maxS : String) (rows : List Record) :
    applyRangeFilter col minS maxS rows =
      rows.filter (fun row => rangeKeep (col, minS, maxS) row) := by
  unfold applyRangeFilter rangeKeep
  cases hmin : minS == "" <;> cases hmax : maxS == "" <;>
    simp [hmin, hmax, List.filter_filter, Bool.and_comm]

theorem applyRangeFilters_eq_filter (rf : List (String × String × String))
    (rows : List Record) :
    applyRangeFilters rf rows =
      rows.filter (fun row => rf.all (fun p => rangeKeep p row)) := by
  induction rf generalizing rows with
  | nil => simp [applyRangeFilters]
  | cons p ps ih =>
    have hstep : applyRangeFilters (p :: ps) rows =
        applyRangeFilters ps (applyRangeFilter p.1 p.2.1 p.2.2 rows) := rfl
    rw [hstep, ih, applyRangeFilter_eq_filter, List.filter_filter]
    apply List.filter_congr
    intro row _
    simp [Bool.and_comm]

/-- C2: a sequence of per-column range-filter passes equals a single filter
keeping exactly the rows whose numeric cast passes the min comparison when
`min` is set and the max comparison when `max` is set (NaN fails both,
`rangeKeep`); and the spec's scenario: min `"18"` over ages 17, 25, `"n/a"`
keeps only the 25 record. -/
theorem C2_prop (rf : List (String × String × String)) (rows : List Record) :
    applyRangeFilters rf rows =
      rows.filter (fun row => rf.all (fun p => rangeKeep p row)) ∧
    applyRangeFilters [("age", "18", "")] agesRange = [[("age", CellValue.num 25)]] :=
  ⟨applyRangeFilters_eq_filter rf rows, by decide⟩

/-! ## Metadata Inferencer majority rule (C7) -/

theorem half_bridge (c n : ℕ) : ((c : ℚ) > (n : ℚ) / 2) ↔ 2 * c > n := by
  rw [gt_iff_lt, div_lt_iff₀ (by norm_num : (0 : ℚ) < 2)]
  constructor
  · intro h
    have : (n : ℚ) < ((2 * c : ℕ) : ℚ) := by push_cast; linarith
    exact_mod_cast this
  · intro h
    have : ((n : ℕ) : ℚ) < ((2 * c : ℕ) : ℚ) := by exact_mod_cast h
    push_cast at this
    linarith

/-- C7: a column is classified numeric iff strictly more than half of the
records hold a number there (`2 * numericCount > length`, i.e. count >
total/2 with ties textual); in the spec's two-record scenario the `age`
column — 1 numeric of 2 — infers as textual. -/
theorem C7_prop :
    (∀ (data : List Record), ∀ m ∈ metadata data,
      (m.type = ColType.number ↔ 2 * numericCount data m.name > data.length))
    ∧ metadata agesRecords =
        [⟨"name", ColType.string⟩, ⟨"age", ColType.string⟩] := by
  constructor
  · intro data m hm
    match data, hm with
    | r0 :: rest, hm =>
      rcases List.mem_map.mp hm with ⟨header, _, rfl⟩
      simp only []
      by_cases h : ((numericCount (r0 :: rest) header : ℚ) >
          ((r0 :: rest).length : ℚ) / 2)
      · simp only [if_pos h]
        simpa using (half_bridge _ _).mp h
      · simp only [if_neg h]
        constructor
        · intro hc
          exact absurd hc (by simp)
        · intro hc
          exact absurd ((half_bridge _ _).mpr hc) h
  · decide

/-- C7, witness: the majority rule applied to the `age` column of the
two-record scenario. -/
theorem C7_witness :
    (⟨"age", ColType.string⟩ : ColumnMetadata).type = ColType.number ↔
      2 * numericCount agesRecords "age" > agesRecords.length :=
  C7_prop.1 agesRecords ⟨"age", ColType.string⟩ (by decide)

/-! ## CSV export (C4) -/

/-- C4, counterexample: with the import `[{name:"Ana"},{name:"Luis"}]` and
the global search `"ana"` active, the table's export contains a single data
row — not one row per imported record (the full two-record export would be
`"name\n\"Ana\"\n\"Luis\""`). -/
theorem C4_counterexample :
    exportCSV (filteredData importExample "ana" "All" (metadata importExample)) =
      some "name\n\"Ana\"" ∧
    importExample.length = 2 ∧
    exportCSV importExample = some "name\n\"Ana\"\n\"Luis\"" := by
  decide

/-- C4 (amended): the export produces the header row from the first
record's keys followed by one double-quoted-value row per record of the
table's **input** data — the globally search/category-filtered set, not the
full import and not the table-filtered view. -/
theorem C4_prop (impData : List Record) (t c : String) (r0 : Record)
    (rest : List Record)
    (h : filteredData impData t c (metadata impData) = r0 :: rest) :
    exportCSV (filteredData impData t c (metadata impData)) =
      some (String.intercalate "," (recordKeys r0) ++ "\n" ++
        String.intercalate "\n" ((r0 :: rest).map quotedRow)) := by
  rw [h]
  rfl

/-- C4, witness: the amended export shape at the concrete two-record
data set with the search term ana active. -/
theorem C4_witness :
    exportCSV (filteredData importExample "ana" "All" (metadata importExample)) =
      some (String.intercalate "," (recordKeys [("name", CellValue.str "Ana")]) ++ "\n" ++
        String.intercalate "\n"
          (([("name", CellValue.str "Ana")] :: ([] : List Record)).map quotedRow)) :=
  C4_prop importExample "ana" "All" [("name", CellValue.str "Ana")] [] (by decide)

/-! ## Pager (C9) -/

theorem totalPages_eq (n : ℕ) : totalPages n = (n + 9) / 10 := by
  set k : ℕ := (n + 9) / 10 with hk
  have h1 : n ≤ 10 * k := by omega
  have h2 : 10 * k < n + 10 := by omega
  have hceil : ⌈(n : ℚ) / 10⌉ = (k : ℤ) := by
    rw [Int.ceil_eq_iff]
    constructor
    · rw [lt_div_iff₀ (by norm_num : (0 : ℚ) < 10)]
      have hc : ((10 * k : ℕ) : ℚ) < (n : ℚ) + 10 := by exact_mod_cast h2
      rw [Nat.cast_mul] at hc
      push_cast at hc ⊢
      linarith
    · rw [div_le_iff₀ (by norm_num : (0 : ℚ) < 10)]
      have hc : (n : ℚ) ≤ ((10 * k : ℕ) : ℚ) := by exact_mod_cast h1
      rw [Nat.cast_mul] at hc
      push_cast at hc ⊢
      linarith
  unfold totalPages
  rw [hceil, Int.toNat_natCast]

theorem pages_flatten_aux (fuel : ℕ) :
    ∀ (l : List Record), l.length ≤ fuel →
      ((List.range (totalPages l.length)).map
        (fun i => paginatedData l (i + 1))).flatten = l := by
  induction fuel with
  | zero =>
    intro l hl
    have : l = [] := List.length_eq_zero.mp (Nat.le_zero.mp hl)
    subst this
    simp [totalPages_eq]
  | succ fuel ih =>
    intro l hl
    rcases Nat.eq_zero_or_pos l.length with h0 | hpos
    · have : l = [] := List.length_eq_zero.mp h0
      subst this
      simp [totalPages_eq]
    · rcases le_or_lt l.length 10 with hle | hgt
      · have ht : totalPages l.length = 1 := by
          rw [totalPages_eq]; omega
        rw [ht]
        simp [paginatedData, List.range_succ, List.take_of_length_le hle]
      · have ht : totalPages l.length = totalPages (l.drop 10).length + 1 := by
          simp only [totalPages_eq, List.length_drop]
          omega
        rw [ht, List.range_succ_eq_map, List.map_cons, List.map_map,
          List.flatten_cons]
        have hpage0 : paginatedData l (0 + 1) = l.take 10 := by
          simp [paginatedData]
        have hshift : ((List.range (totalPages (l.drop 10).length)).map
            ((fun i => paginatedData l (i + 1)) ∘ Nat.succ)).flatten = l.drop 10 := by
          have hcong : ((fun i => paginatedData l (i + 1)) ∘ Nat.succ) =
              fun i => paginatedData (l.drop 10) (i + 1) := by
            funext i
            simp only [Function.comp, Nat.succ_eq_add_one, paginatedData,
              List.drop_drop]
            congr 2
            omega
          rw [hcong]
          apply ih
          rw [List.length_drop]
          omega
        rw [hpage0, hshift, List.take_append_drop]

/-- C9: each page slice has at most 10 records; `Math.ceil(count / 10)`
equals the natural-number ceiling `(count + 9) / 10`, in particular 0 for
an empty sequence; and concatenating the slices of pages 1 through
`totalPages` rebuilds the processed sequence in order. -/
theorem C9_prop :
    (∀ (rows : List Record) (p : ℕ), 1 ≤ p → (paginatedData rows p).length ≤ 10)
    ∧ (∀ n : ℕ, totalPages n = (n + 9) / 10)
    ∧ totalPages 0 = 0
    ∧ (∀ rows : List Record,
        ((List.range (totalPages rows.length)).map
          (fun i => paginatedData rows (i + 1))).flatten = rows) := by
  refine ⟨?_, totalPages_eq, by rw [totalPages_eq], ?_⟩
  · intro rows p _
    simp [paginatedData]
  · intro rows
    exact pages_flatten_aux rows.length rows le_rfl

/-- C9, witness: the page-size bound at page 1 of a one-record set. -/
theorem C9_witness : (paginatedData pagerExample 1).length ≤ 10 :=
  C9_prop.1 pagerExample 1 (by decide)

/-! ## Stable sort lemmas -/

theorem insertSorted_perm {α : Type} (le : α → α → Bool) (a : α) (l : List α) :
    (insertSorted le a l).Perm (a :: l) := by
  induction l with
  | nil => simp [insertSorted]
  | cons b bs ih =>
    unfold insertSorted
    by_cases h : le b a = true
    · rw [if_pos h]
      exact (ih.cons b).trans (List.Perm.swap a b bs)
    · rw [if_neg h]

theorem stableSort_perm {α : Type} (le : α → α → Bool) (l : List α) :
    (stableSort le l).Perm l := by
  have aux : ∀ (l acc : List α),
      (l.foldl (fun acc x => insertSorted le x acc) acc).Perm (acc ++ l) := by
    intro l
    induction l with
    | nil => intro acc; simp
    | cons x xs ih =>
      intro acc
      have h1 := ih (insertSorted le x acc)
      have h2 : (insertSorted le x acc ++ xs).Perm (acc ++ x :: xs) := by
        have hx : (insertSorted le x acc).Perm (acc ++ [x]) :=
          (insertSorted_perm le x acc).trans (List.perm_append_singleton x acc).symm
        calc (insertSorted le x acc ++ xs).Perm ((acc ++ [x]) ++ xs) :=
              hx.append_right xs
          _ = acc ++ x :: xs := by simp
      exact h1.trans h2
  simpa using aux l []

theorem insertSorted_sorted {α : Type} (le : α → α → Bool)
    (htot : ∀ a b, le a b = true ∨ le b a = true)
    (htrans : ∀ a b c, le a b = true → le b c = true → le a c = true)
    (a : α) (l : List α) (h : l.Pairwise (fun x y => le x y = true)) :
    (insertSorted le a l).Pairwise (fun x y => le x y = true) := by
  induction l with
  | nil => simp [insertSorted]
  | cons b bs ih =>
    rcases List.pairwise_cons.mp h with ⟨hb, hbs⟩
    unfold insertSorted
    by_cases hba : le b a = true
    · rw [if_pos hba]
      refine List.pairwise_cons.mpr ⟨?_, ih hbs⟩
      intro y hy
      have hy' := (insertSorted_perm le a bs).mem_iff.mp hy
      rcases List.mem_cons.mp hy' with rfl | hymem
      · exact hba
      · exact hb y hymem
    · rw [if_neg hba]
      have hab : le a b = true := (htot a b).resolve_right (fun hc => hba hc)
      refine List.pairwise_cons.mpr ⟨?_, h⟩
      intro y hy
      rcases List.mem_cons.mp hy with rfl | hymem
      · exact hab
      · exact htrans a b y hab (hb y hymem)

theorem stableSort_sorted {α : Type} (le : α → α → Bool)
    (htot : ∀ a b, le a b = true ∨ le b a = true)
    (htrans : ∀ a b c, le a b = true → le b c = true → le a c = true)
    (l : List α) :
    (stableSort le l).Pairwise (fun x y => le x y = true) := by
  have aux : ∀ (l acc : List α), acc.Pairwise (fun x y => le x y = true) →
      (l.foldl (fun acc x => insertSorted le x acc) acc).Pairwise
        (fun x y => le x y = true) := by
    intro l
    induction l with
    | nil => intro acc hacc; simpa using hacc
    | cons x xs ih =>
      intro acc hacc
      exact ih _ (insertSorted_sorted le htot htrans x acc hacc)
  exact aux l [] (by simp)

/-! ## Safety of filter/sort and the histogram crash (C3) -/

/-- C3: the claim fails — the histogram branch throws on any column whose
numeric values are all equal (bin width 0 makes the bin index NaN and
`distribution[NaN].frequency++` dereferences `undefined`), modelled by the
`Except.error` result on `[{v:5}]`.  The filter and sort stages, in
contrast, are total: for every input and configuration `processedData`
returns a permutation of the filtered rows. -/
theorem C3_prop :
    chartDataHistogram [[("v", CellValue.num 5)]] "v" =
      .error "TypeError: distribution[NaN] is undefined"
    ∧ (∀ (data : List Record) (cf : List (String × String))
        (rf : List (String × String × String)) (sc : Option SortConfig),
        (processedData data cf rf sc).Perm
          (applyRangeFilters rf (applyColumnFilters cf data))) := by
  refine ⟨by decide, ?_⟩
  intro data cf rf sc
  cases sc with
  | none => exact List.Perm.refl _
  | some s => exact stableSort_perm _ _

/-! ## Group-mean aggregation (C5) -/

/-- C5, counterexample: the Dashboard variant truncates to the first ten
groups **before** sorting, so over eleven groups with means 1..11 (the
mean-11 group inserted last) the output is the means 10..1 and the
top-mean group `g11` is missing entirely; and a record lacking the group
column is keyed `"undefined"`, not `"N/A"`. -/
theorem C5_counterexample :
    dashboardChartData groups11 (metadata groups11) =
      [("g10", some 10), ("g9", some 9), ("g8", some 8), ("g7", some 7),
       ("g6", some 6), ("g5", some 5), ("g4", some 4), ("g3", some 3),
       ("g2", some 2), ("g1", some 1)]
    ∧ dashboardChartData groups2 (metadata groups2) =
      [("undefined", some 2), ("a", some 1)] := by
  decide

/-- C5 (amended): the ChartBuilder aggregation (cap 500, limit 15) does
group → mean → sort descending → truncate, so its output is the first 15
of a descending-sorted permutation of all group means; falsy group values
become `"N/A"` and non-numeric value casts become 0.  The Dashboard
variant (cap 100, limit 10) instead truncates to the first ten groups in
insertion order before sorting, keys missing group values `"undefined"`,
and leaves non-numeric values NaN. -/
theorem C5_prop (data : List Record) (x y : String) :
    (∃ full : List (String × ℚ),
      chartBuilderGrouped data x y = full.take 15 ∧
      full.Perm ((chartGroups data x y).map (fun p => (p.1, qMean p.2))) ∧
      full.Pairwise (fun a b => b.2 ≤ a.2))
    ∧ (∀ r : Record, getVal r x = none → xKey r x = "N/A")
    ∧ (∀ r : Record, toNumberOpt (getVal r y) = none → yVal r y = 0) := by
  refine ⟨?_, ?_, ?_⟩
  · refine ⟨_, rfl, stableSort_perm _ _, ?_⟩
    have hs := stableSort_sorted descLeQ
      (fun a b => by
        unfold descLeQ
        rcases le_total b.2 a.2 with h | h
        · exact Or.inl (by simpa using h)
        · exact Or.inr (by simpa using h))
      (fun a b c hab hbc => by
        unfold descLeQ at *
        simp only [decide_eq_true_eq] at hab hbc ⊢
        exact hbc.trans hab)
      ((chartGroups data x y).map (fun p => (p.1, qMean p.2)))
    exact hs.imp (fun h => by simpa [descLeQ] using h)
  · intro r hr
    simp [xKey, cvFalsy, hr]
  · intro r hr
    simp [yVal, hr]

/-- C5, witness: the amended facts at concrete inputs — the empty record
has no `g`/`v` properties, so its group key is `"N/A"` and its value cast
is 0. -/
theorem C5_witness : xKey [] "g" = "N/A" ∧ yVal [] "v" = 0 :=
  ⟨(C5_prop [] "g" "v").2.1 [] rfl, (C5_prop [] "g" "v").2.2 [] rfl⟩

/-! ## Histogram frequency accounting (C6) -/

theorem bumpBin_length (dist : List HistBin) (i : ℕ) :
    (bumpBin dist i).length = dist.length := by
  induction dist generalizing i with
  | nil => rfl
  | cons b bs ih =>
    cases i with
    | zero => rfl
    | succ n => simp [bumpBin, ih]

theorem bumpBin_sum (dist : List HistBin) (i : ℕ) (h : i < dist.length) :
    ((bumpBin dist i).map HistBin.frequency).sum =
      (dist.map HistBin.frequency).sum + 1 := by
  induction dist generalizing i with
  | nil => simp at h
  | cons b bs ih =>
    cases i with
    | zero => simp [bumpBin]; omega
    | succ n =>
      have hn : n < bs.length := by simpa using h
      simp [bumpBin, ih n hn]
      omega

theorem foldl_bump (idx : ℚ → ℕ) (hidx : ∀ v, idx v < 10) (vs : List ℚ) :
    ∀ dist : List HistBin, dist.length = 10 →
      ((vs.foldl (fun d v => bumpBin d (idx v)) dist).map HistBin.frequency).sum
        = (dist.map HistBin.frequency).sum + vs.length
      ∧ (vs.foldl (fun d v => bumpBin d (idx v)) dist).length = 10 := by
  induction vs with
  | nil => intro dist hd; exact ⟨by simp, hd⟩
  | cons v vs ih =>
    intro dist hd
    have hb : (bumpBin dist (idx v)).length = 10 := by
      rw [bumpBin_length]; exact hd
    have hrec := ih (bumpBin dist (idx v)) hb
    refine ⟨?_, hrec.2⟩
    rw [List.foldl_cons, hrec.1, bumpBin_sum dist (idx v) (by rw [hd]; exact hidx v)]
    simp
    omega

theorem init_bins_sum (g : ℕ → String) :
    (((List.range 10).map
      (fun i => ({ range := g i, frequency := 0 } : HistBin))).map
        HistBin.frequency).sum = 0 := by
  apply List.sum_eq_zero
  intro x hx
  rcases List.mem_map.mp hx with ⟨b, hb, rfl⟩
  rcases List.mem_map.mp hb with ⟨i, _, rfl⟩
  rfl

/-- C6: the claim fails on any column whose numeric values are all equal —
the bin width is 0, the bin index is NaN and the code throws instead of
binning (`[{x:2},{x:2}]` errors).  Whenever the histogram does return
(distinct min and max), its ten bins' frequencies sum to the number of
numeric values — each value lands in exactly one bin, index
`min(floor((v-min)/step), 9)`. -/
theorem C6_prop :
    chartDataHistogram [[("x", CellValue.num 2)], [("x", CellValue.num 2)]] "x" =
      .error "TypeError: distribution[NaN] is undefined"
    ∧ (∀ (data : List Record) (y : String) (bins : List HistBin),
        chartDataHistogram data y = .ok bins →
          (bins.map HistBin.frequency).sum = (numericValues data y).length ∧
          (bins = [] ∨ bins.length = 10)) := by
  refine ⟨by decide, ?_⟩
  intro data y bins h
  simp only [chartDataHistogram] at h
  split at h
  · rename_i hlen
    injection h with h'
    subst h'
    refine ⟨?_, Or.inl rfl⟩
    simp [hlen]
  · rename_i hlen
    split at h
    · cases h
    · injection h with h'
      subst h'
      have hfold := foldl_bump
        (fun v => min (⌊(v - listMin (numericValues data y)) /
          ((listMax (numericValues data y) - listMin (numericValues data y)) / 10)⌋.toNat) 9)
        (fun v => Nat.lt_succ_of_le (Nat.min_le_right _ _))
        (numericValues data y)
        ((List.range 10).map (fun (i : ℕ) =>
          ({ range := binLabel (listMin (numericValues data y))
              ((listMax (numericValues data y) - listMin (numericValues data y)) / 10) i
             frequency := 0 } : HistBin)))
        (by simp)
      refine ⟨?_, Or.inr hfold.2⟩
      rw [hfold.1, init_bins_sum]
      exact Nat.zero_add _

/-- C6, witness: the bookkeeping applied to the two-bin-occupancy example
`[{x:1},{x:2}]`, whose histogram the code does return. -/
theorem C6_witness :
    (histExBins.map HistBin.frequency).sum = (numericValues histEx "x").length ∧
      (histExBins = [] ∨ histExBins.length = 10) :=
  C6_prop.2 histEx "x" histExBins (by decide)

/-! ## Order independence of the Query Engine filters (C8) -/

theorem filter_swap {α : Type} (p q : α → Bool) (l : List α) :
    (l.filter p).filter q = (l.filter q).filter p := by
  simp only [List.filter_filter]
  apply List.filter_congr
  intro a _
  exact Bool.and_comm (q a) (p a)

theorem applyStages_cons (s : FilterStage) (ss : List FilterStage)
    (rows : List Record) :
    applyStages (s :: ss) rows = applyStages ss (rows.filter (stagePred s)) := rfl

theorem applyStages_append (s₁ s₂ : List FilterStage) (rows : List Record) :
    applyStages (s₁ ++ s₂) rows = applyStages s₂ (applyStages s₁ rows) :=
  List.foldl_append _ _ _ _

theorem applyTextFilter_eq (col v : String) (rows : List Record) :
    applyTextFilter col v rows = rows.filter (stagePred (.textF col v)) := by
  unfold applyTextFilter stagePred
  cases h : jsToLower v == "" with
  | true => simp [h]
  | false => simp [h]

theorem applyRangeFilter_eq_stages (col m M : String) (rows : List Record) :
    applyRangeFilter col m M rows =
      (rows.filter (stagePred (.rangeMin col m))).filter
        (stagePred (.rangeMax col M)) := by
  unfold applyRangeFilter stagePred
  cases hm : m == "" <;> cases hM : M == "" <;> simp [hm, hM]

theorem filteredData_eq_stages (data : List Record) (t c : String)
    (md : List ColumnMetadata) :
    filteredData data t c md =
      applyStages [FilterStage.search t, FilterStage.category md c] data := by
  unfold filteredData
  rw [applyStages_cons, applyStages_cons]
  show data.filter _ = (data.filter (stagePred (.search t))).filter
    (stagePred (.category md c))
  rw [List.filter_filter]
  apply List.filter_congr
  intro row _
  exact (Bool.and_comm _ _).symm

theorem applyColumnFilters_eq_stages (cf : List (String × String))
    (rows : List Record) :
    applyColumnFilters cf rows =
      applyStages (cf.map (fun p => FilterStage.textF p.1 p.2)) rows := by
  induction cf generalizing rows with
  | nil => rfl
  | cons p ps ih =>
    have h1 : applyColumnFilters (p :: ps) rows =
        applyColumnFilters ps (applyTextFilter p.1 p.2 rows) := rfl
    rw [h1, ih, List.map_cons, applyStages_cons, applyTextFilter_eq]

theorem applyRangeFilters_eq_stages' (rf : List (String × String × String))
    (rows : List Record) :
    applyRangeFilters rf rows =
      applyStages ((rf.map (fun p =>
        [FilterStage.rangeMin p.1 p.2.1, FilterStage.rangeMax p.1 p.2.2])).flatten)
        rows := by
  induction rf generalizing rows with
  | nil => rfl
  | cons p ps ih =>
    have h1 : applyRangeFilters (p :: ps) rows =
        applyRangeFilters ps (applyRangeFilter p.1 p.2.1 p.2.2 rows) := rfl
    rw [h1, ih, List.map_cons, List.flatten_cons]
    show applyStages _ _ = applyStages
      (FilterStage.rangeMin p.1 p.2.1 :: FilterStage.rangeMax p.1 p.2.2 :: _) rows
    rw [applyStages_cons, applyStages_cons, applyRangeFilter_eq_stages]
    rfl

theorem applyStages_perm (ss ts : List FilterStage) (hp : ss.Perm ts) :
    ∀ rows : List Record, applyStages ss rows = applyStages ts rows := by
  induction hp with
  | nil => intro rows; rfl
  | cons x _ ih =>
    intro rows
    rw [applyStages_cons, applyStages_cons, ih]
  | swap x y l =>
    intro rows
    rw [applyStages_cons, applyStages_cons, applyStages_cons, applyStages_cons,
      filter_swap]
  | trans _ _ ih₁ ih₂ =>
    intro rows
    rw [ih₁, ih₂]

/-- C8: every Query Engine filter is a per-row keep-predicate, so applying
the elementary filter stages in any order yields the same final set; and the
app's actual pipeline — global search and category, then per-column text
filters, then per-column range filters — is exactly the canonical stage
sequence, hence also order-independent. -/
theorem C8_prop :
    (∀ (ss ts : List FilterStage), ss.Perm ts →
      ∀ rows : List Record, applyStages ss rows = applyStages ts rows)
    ∧ (∀ (data : List Record) (t c : String) (md : List ColumnMetadata)
        (cf : List (String × String)) (rf : List (String × String × String)),
        applyRangeFilters rf (applyColumnFilters cf (filteredData data t c md)) =
          applyStages (canonicalStages t c md cf rf) data) := by
  refine ⟨applyStages_perm, ?_⟩
  intro data t c md cf rf
  rw [filteredData_eq_stages, applyColumnFilters_eq_stages,
    applyRangeFilters_eq_stages', canonicalStages, applyStages_append,
    applyStages_append]

/-- C8, witness: swapping a search stage with a range stage over a concrete
two-record set leaves the result unchanged. -/
theorem C8_witness :
    applyStages [FilterStage.search "ana", FilterStage.rangeMin "age" "18"] agesRecords =
      applyStages [FilterStage.rangeMin "age" "18", FilterStage.search "ana"] agesRecords :=
  C8_prop.1 _ _
    (List.Perm.swap (FilterStage.rangeMin "age" "18") (FilterStage.search "ana") [])
    agesRecords

end Audit
